import Mathlib

/-!
# X86AdditionalInstrInfo.h

A shallow embedding of `src/X86/X86AdditionalInstrInfo.h` (namespace `mctoll`):
the `InstructionKind` enumeration, the `X86AdditionalInstrInfo` record, the
opcode-keyed table and the five inline query functions, followed by theorems
about them.

Conventions of the embedding.

* Machine integers are natural numbers; a conversion to a narrower or wider
  unsigned type is written as an explicit remainder (`toUInt16`).
* Assertions are enabled. A failed `assert` and a reached `llvm_unreachable`
  do not return a value; a function that can hit one returns `Except Fatal _`,
  and the fatal outcome is `Except.error`.
* The table `X86AddlInstrInfo` is only declared (`extern`) in the header, so
  every function that reads it takes the table as an argument.
* The constants of `llvm::X86II` come from an LLVM header and are taken as a
  parameter record.
-/

namespace mctoll

/-- Instruction kinds: the enumeration `InstructionKind : uint8_t`, in
declaration order. -/
inductive InstructionKind
  | Unknown
  | BINARY_OP_RM
  | BINARY_OP_RR
  | BINARY_OP_WITH_IMM
  | BINARY_OP_MRI_OR_MRC
  | BRANCH_MEM_OP
  | COMPARE
  | CONVERT_BWWDDQ
  | CONVERT_WDDQQO
  | DIVIDE_MEM_OP
  | DIVIDE_REG_OP
  | FPU_REG_OP
  | LEA_OP
  | LEAVE_OP
  | LOAD_FPU_REG
  | MOV_RR
  | MOV_RI
  | MOV_TO_MEM
  | MOV_FROM_MEM
  | NOOP
  | INPLACE_MEM_OP
  | SETCC
  | BIT_TEST_OP
  | STORE_FPU_REG
  | SSE_KIND_BEGIN
  | SSE_MOV_TO_MEM
  | SSE_MOV_FROM_MEM
  | SSE_MOV_RR
  | SSE_COMPARE_RR
  | SSE_COMPARE_RM
  | SSE_CONVERT_RR
  | SSE_CONVERT_RM
  | SSE_KIND_END
  | INSTR_KIND_END
  deriving DecidableEq, Repr

namespace InstructionKind

/-- The underlying `uint8_t` value of an enumerator: `Unknown = 0`, every
later enumerator one more than the one declared before it. -/
def toNat : InstructionKind → Nat
  | Unknown => 0
  | BINARY_OP_RM => 1
  | BINARY_OP_RR => 2
  | BINARY_OP_WITH_IMM => 3
  | BINARY_OP_MRI_OR_MRC => 4
  | BRANCH_MEM_OP => 5
  | COMPARE => 6
  | CONVERT_BWWDDQ => 7
  | CONVERT_WDDQQO => 8
  | DIVIDE_MEM_OP => 9
  | DIVIDE_REG_OP => 10
  | FPU_REG_OP => 11
  | LEA_OP => 12
  | LEAVE_OP => 13
  | LOAD_FPU_REG => 14
  | MOV_RR => 15
  | MOV_RI => 16
  | MOV_TO_MEM => 17
  | MOV_FROM_MEM => 18
  | NOOP => 19
  | INPLACE_MEM_OP => 20
  | SETCC => 21
  | BIT_TEST_OP => 22
  | STORE_FPU_REG => 23
  | SSE_KIND_BEGIN => 24
  | SSE_MOV_TO_MEM => 25
  | SSE_MOV_FROM_MEM => 26
  | SSE_MOV_RR => 27
  | SSE_COMPARE_RR => 28
  | SSE_COMPARE_RM => 29
  | SSE_CONVERT_RR => 30
  | SSE_CONVERT_RM => 31
  | SSE_KIND_END => 32
  | INSTR_KIND_END => 33

/-- The seven kinds declared between the two sentinels. -/
def simdFloatKinds : List InstructionKind :=
  [SSE_MOV_TO_MEM, SSE_MOV_FROM_MEM, SSE_MOV_RR, SSE_COMPARE_RR,
   SSE_COMPARE_RM, SSE_CONVERT_RR, SSE_CONVERT_RM]

end InstructionKind

/-- The record `struct X86AdditionalInstrInfo`. `MemOpSize` is a `uint8_t`
field, so the values it can hold are those below 256; `InstKind` is an
`InstructionKind`. -/
structure X86AdditionalInstrInfo where
  MemOpSize : Nat
  InstKind : InstructionKind
  deriving DecidableEq, Repr

/-- The table type `const llvm::DenseMap<uint16_t, X86AdditionalInstrInfo>`.
`DenseMap` is a container of the LLVM library; it is taken as a finite map and
represented by the list of its key/record pairs. -/
abbrev const_addl_instr_info := List (Nat × X86AdditionalInstrInfo)

/-- The lookup `DenseMap::find(Key)`: the record stored under `Key` (the first
pair with that key), or `none` for the end iterator. -/
def find : const_addl_instr_info → Nat → Option X86AdditionalInstrInfo
  | [], _ => none
  | (k, v) :: rest, Key => if k = Key then some v else find rest Key

/-- The two ways a query ends without a value. -/
inductive Fatal
  /-- The assertion with the text "Unknown opcode" fails. -/
  | unknownOpcode
  /-- The call `llvm_unreachable("Unknown precision in instruction encoding")`
  is reached. -/
  | unknownPrecision
  deriving DecidableEq, Repr

/-- The conversion to `uint16_t` (and to `unsigned short`). -/
def toUInt16 (x : Nat) : Nat := x % 65536

/-- The constants of `llvm::X86II` read by `getInstructionBitPrecision`. They
are defined in `MCTargetDesc/X86BaseInfo.h`, a header of LLVM, and are taken
as parameters. -/
structure X86II where
  OpPrefixMask : Nat
  XS : Nat
  XD : Nat
  SSEDomainShift : Nat
  deriving DecidableEq, Repr

/-- A sample layout: a two-bit operand-prefix field at bit 11 with `XS` the
value 2 and `XD` the value 3 of that field, and the SSE domain at bit 26. -/
def sampleX86II : X86II :=
  { OpPrefixMask := 0x1800, XS := 0x1000, XD := 0x1800, SSEDomainShift := 26 }

/-- The function `getInstructionKind(unsigned int Opcode)`. -/
def getInstructionKind (T : const_addl_instr_info) (Opcode : Nat) :
    Except Fatal InstructionKind :=
  match find T (toUInt16 Opcode) with
  | none => Except.error Fatal.unknownOpcode
  | some r => Except.ok r.InstKind

/-- The function `getInstructionMemOpSize(unsigned int Opcode)`; the `uint8_t`
field is converted to the `unsigned short` result. -/
def getInstructionMemOpSize (T : const_addl_instr_info) (Opcode : Nat) :
    Except Fatal Nat :=
  match find T (toUInt16 Opcode) with
  | none => Except.error Fatal.unknownOpcode
  | some r => Except.ok (toUInt16 r.MemOpSize)

/-- The function `getInstructionBitPrecision(uint64_t TSFlags)`. -/
def getInstructionBitPrecision (ii : X86II) (TSFlags : Nat) : Except Fatal Nat :=
  if TSFlags &&& ii.OpPrefixMask = ii.XS then
    Except.ok 32
  else if TSFlags &&& ii.OpPrefixMask = ii.XD then
    Except.ok 64
  else
    match (TSFlags >>> ii.SSEDomainShift) &&& 3 with
    | 1 => Except.ok 32
    | 3 => Except.ok 32
    | 2 => Except.ok 64
    | _ => Except.error Fatal.unknownPrecision

/-- The function `isNoop(unsigned int Opcode)`. -/
def isNoop (T : const_addl_instr_info) (Opcode : Nat) : Except Fatal Bool :=
  match getInstructionKind T Opcode with
  | Except.error e => Except.error e
  | Except.ok Kind => Except.ok (decide (Kind.toNat = InstructionKind.NOOP.toNat))

/-- The function `isSSE2Instruction(unsigned int Opcode)`. -/
def isSSE2Instruction (T : const_addl_instr_info) (Opcode : Nat) : Except Fatal Bool :=
  match getInstructionKind T Opcode with
  | Except.error e => Except.error e
  | Except.ok Kind =>
    Except.ok (decide (Kind.toNat > InstructionKind.SSE_KIND_BEGIN.toNat) &&
               decide (Kind.toNat < InstructionKind.SSE_KIND_END.toNat))

/-- A small table used in the examples: three keys, one of them with a
no-op record, one with a SIMD-float record. -/
def sampleTable : const_addl_instr_info :=
  [(7, { MemOpSize := 0, InstKind := InstructionKind.NOOP }),
   (9, { MemOpSize := 0, InstKind := InstructionKind.MOV_RR }),
   (12, { MemOpSize := 8, InstKind := InstructionKind.SSE_CONVERT_RM })]

/-- Modelled from the spec: the contents of the table `X86AddlInstrInfo`. The
header only declares the table (`extern`); its definition is in another file of
the repository. The spec's data model gives every record a
`memoryOperandSizeBytes` that is one of 0, 1, 2, 4, 8, as does the header's
comment on the field `MemOpSize`. -/
def recordSizesValid (T : const_addl_instr_info) : Prop :=
  ∀ e ∈ T, e.2.MemOpSize = 0 ∨ e.2.MemOpSize = 1 ∨ e.2.MemOpSize = 2 ∨
    e.2.MemOpSize = 4 ∨ e.2.MemOpSize = 8

instance (T : const_addl_instr_info) : Decidable (recordSizesValid T) :=
  List.decidableBAll _ T

/-! ## Helper lemmas -/

theorem InstructionKind.toNat_injective :
    ∀ a b : InstructionKind, a.toNat = b.toNat → a = b := by
  intro a b h
  cases a <;> cases b <;> first | rfl | (simp [InstructionKind.toNat] at h)

theorem getInstructionKind_of_find {T : const_addl_instr_info} {Opcode : Nat}
    {r : X86AdditionalInstrInfo} (h : find T (toUInt16 Opcode) = some r) :
    getInstructionKind T Opcode = Except.ok r.InstKind := by
  simp [getInstructionKind, h]

theorem getInstructionKind_of_find_none {T : const_addl_instr_info} {Opcode : Nat}
    (h : find T (toUInt16 Opcode) = none) :
    getInstructionKind T Opcode = Except.error Fatal.unknownOpcode := by
  simp [getInstructionKind, h]

theorem getInstructionMemOpSize_of_find {T : const_addl_instr_info} {Opcode : Nat}
    {r : X86AdditionalInstrInfo} (h : find T (toUInt16 Opcode) = some r) :
    getInstructionMemOpSize T Opcode = Except.ok (toUInt16 r.MemOpSize) := by
  simp [getInstructionMemOpSize, h]

theorem isSSE2Instruction_of_find {T : const_addl_instr_info} {Opcode : Nat}
    {r : X86AdditionalInstrInfo} (h : find T (toUInt16 Opcode) = some r) :
    isSSE2Instruction T Opcode =
      Except.ok (decide (r.InstKind.toNat > InstructionKind.SSE_KIND_BEGIN.toNat) &&
                 decide (r.InstKind.toNat < InstructionKind.SSE_KIND_END.toNat)) := by
  simp [isSSE2Instruction, getInstructionKind_of_find h]

theorem isNoop_of_find {T : const_addl_instr_info} {Opcode : Nat}
    {r : X86AdditionalInstrInfo} (h : find T (toUInt16 Opcode) = some r) :
    isNoop T Opcode =
      Except.ok (decide (r.InstKind.toNat = InstructionKind.NOOP.toNat)) := by
  simp [isNoop, getInstructionKind_of_find h]

theorem InstructionKind.between_iff_mem (k : InstructionKind) :
    (InstructionKind.SSE_KIND_BEGIN.toNat < k.toNat ∧
      k.toNat < InstructionKind.SSE_KIND_END.toNat) ↔
    k ∈ InstructionKind.simdFloatKinds := by
  cases k <;> simp [InstructionKind.toNat, InstructionKind.simdFloatKinds]

/-! ## The SIMD-float predicate -/

/-- C1: for every table and every opcode whose key `(uint16_t)Opcode` has an
entry, `isSSE2Instruction` returns a boolean, and that boolean is true if and
only if the kind returned by `getInstructionKind` is strictly greater than
`SSE_KIND_BEGIN` and strictly less than `SSE_KIND_END` in declaration order. -/
theorem isSSE2Instruction_iff_between (T : const_addl_instr_info) (Opcode : Nat)
    (r : X86AdditionalInstrInfo) (h : find T (toUInt16 Opcode) = some r) :
    ∃ Kind b, getInstructionKind T Opcode = Except.ok Kind ∧
      isSSE2Instruction T Opcode = Except.ok b ∧
      (b = true ↔
        InstructionKind.SSE_KIND_BEGIN.toNat < Kind.toNat ∧
        Kind.toNat < InstructionKind.SSE_KIND_END.toNat) := by
  refine ⟨r.InstKind, _, getInstructionKind_of_find h, isSSE2Instruction_of_find h, ?_⟩
  simp

theorem isSSE2Instruction_iff_between_witness :
    find sampleTable (toUInt16 12) = some ⟨8, InstructionKind.SSE_CONVERT_RM⟩ ∧
    ∃ Kind b, getInstructionKind sampleTable 12 = Except.ok Kind ∧
      isSSE2Instruction sampleTable 12 = Except.ok b ∧
      (b = true ↔
        InstructionKind.SSE_KIND_BEGIN.toNat < Kind.toNat ∧
        Kind.toNat < InstructionKind.SSE_KIND_END.toNat) :=
  ⟨by decide, isSSE2Instruction_iff_between sampleTable 12
    ⟨8, InstructionKind.SSE_CONVERT_RM⟩ (by decide)⟩

/-- C2: ordering invariant of `InstructionKind`. A kind lies strictly between
`SSE_KIND_BEGIN` and `SSE_KIND_END` if and only if it is one of the seven
SIMD-float kinds; hence `isSSE2Instruction` returns false for every opcode
whose record carries any other kind, among them `Unknown`, `NOOP`,
`INSTR_KIND_END` and the sentinels `SSE_KIND_BEGIN` and `SSE_KIND_END`. -/
theorem sse_range_iff_simdFloatKind :
    (∀ k : InstructionKind,
      (InstructionKind.SSE_KIND_BEGIN.toNat < k.toNat ∧
        k.toNat < InstructionKind.SSE_KIND_END.toNat) ↔
      (k = InstructionKind.SSE_MOV_TO_MEM ∨ k = InstructionKind.SSE_MOV_FROM_MEM ∨
       k = InstructionKind.SSE_MOV_RR ∨ k = InstructionKind.SSE_COMPARE_RR ∨
       k = InstructionKind.SSE_COMPARE_RM ∨ k = InstructionKind.SSE_CONVERT_RR ∨
       k = InstructionKind.SSE_CONVERT_RM)) ∧
    (∀ (T : const_addl_instr_info) (Opcode : Nat) (r : X86AdditionalInstrInfo),
      find T (toUInt16 Opcode) = some r →
      r.InstKind ∉ InstructionKind.simdFloatKinds →
      isSSE2Instruction T Opcode = Except.ok false) ∧
    (∀ (T : const_addl_instr_info) (Opcode : Nat) (r : X86AdditionalInstrInfo),
      find T (toUInt16 Opcode) = some r →
      (r.InstKind = InstructionKind.Unknown ∨ r.InstKind = InstructionKind.NOOP ∨
       r.InstKind = InstructionKind.INSTR_KIND_END ∨
       r.InstKind = InstructionKind.SSE_KIND_BEGIN ∨
       r.InstKind = InstructionKind.SSE_KIND_END) →
      isSSE2Instruction T Opcode = Except.ok false) := by
  refine ⟨?_, ?_, ?_⟩
  · intro k
    rw [InstructionKind.between_iff_mem]
    simp [InstructionKind.simdFloatKinds]
  · intro T Opcode r h hk
    rw [isSSE2Instruction_of_find h]
    rw [← InstructionKind.between_iff_mem] at hk
    congr 1
    simpa [gt_iff_lt] using hk
  · intro T Opcode r h hk
    rw [isSSE2Instruction_of_find h]
    rcases hk with hk | hk | hk | hk | hk <;> rw [hk] <;> rfl

theorem sse_range_iff_simdFloatKind_witness :
    find sampleTable (toUInt16 7) = some ⟨0, InstructionKind.NOOP⟩ ∧
    (⟨0, InstructionKind.NOOP⟩ : X86AdditionalInstrInfo).InstKind ∉
      InstructionKind.simdFloatKinds ∧
    isSSE2Instruction sampleTable 7 = Except.ok false :=
  ⟨by decide, by decide,
   sse_range_iff_simdFloatKind.2.1 sampleTable 7 ⟨0, InstructionKind.NOOP⟩
     (by decide) (by decide)⟩

/-! ## The no-op predicate -/

/-- C3: for every table and every opcode whose key `(uint16_t)Opcode` has an
entry, `isNoop` returns a boolean that is true if and only if the entry's
`InstKind` is `NOOP`. The answer is the same for any other entry of the same
kind, whatever its `MemOpSize`; an entry with `MemOpSize` 0 and a kind other
than `NOOP` gives false. -/
theorem isNoop_iff_NOOP (T : const_addl_instr_info) (Opcode : Nat)
    (r : X86AdditionalInstrInfo) (h : find T (toUInt16 Opcode) = some r) :
    (∃ b, isNoop T Opcode = Except.ok b ∧
      (b = true ↔ r.InstKind = InstructionKind.NOOP)) ∧
    (∀ (T2 : const_addl_instr_info) (r2 : X86AdditionalInstrInfo),
      find T2 (toUInt16 Opcode) = some r2 → r2.InstKind = r.InstKind →
      isNoop T2 Opcode = isNoop T Opcode) ∧
    (r.MemOpSize = 0 → r.InstKind ≠ InstructionKind.NOOP →
      isNoop T Opcode = Except.ok false) := by
  have key : r.InstKind.toNat = InstructionKind.NOOP.toNat ↔
      r.InstKind = InstructionKind.NOOP :=
    ⟨InstructionKind.toNat_injective _ _, fun e => by rw [e]⟩
  refine ⟨⟨_, isNoop_of_find h, ?_⟩, ?_, ?_⟩
  · simp [key]
  · intro T2 r2 h2 hk
    rw [isNoop_of_find h, isNoop_of_find h2, hk]
  · intro _ hk
    rw [isNoop_of_find h]
    congr 1
    simp [key, hk]

theorem isNoop_iff_NOOP_witness :
    find sampleTable (toUInt16 9) = some ⟨0, InstructionKind.MOV_RR⟩ ∧
    isNoop sampleTable 9 = Except.ok false :=
  ⟨by decide,
   (isNoop_iff_NOOP sampleTable 9 ⟨0, InstructionKind.MOV_RR⟩ (by decide)).2.2
     rfl (by decide)⟩

/-! ## The precision decoder -/

theorem domain_lt_four (TSFlags shift : Nat) : (TSFlags >>> shift) &&& 3 < 4 :=
  Nat.lt_succ_of_le Nat.and_le_right

theorem getInstructionBitPrecision_of_XS (ii : X86II) (TSFlags : Nat)
    (h : TSFlags &&& ii.OpPrefixMask = ii.XS) :
    getInstructionBitPrecision ii TSFlags = Except.ok 32 := by
  simp [getInstructionBitPrecision, h]

theorem getInstructionBitPrecision_of_XD (ii : X86II) (TSFlags : Nat)
    (hXS : TSFlags &&& ii.OpPrefixMask ≠ ii.XS)
    (h : TSFlags &&& ii.OpPrefixMask = ii.XD) :
    getInstructionBitPrecision ii TSFlags = Except.ok 64 := by
  unfold getInstructionBitPrecision
  rw [if_neg hXS, if_pos h]

theorem getInstructionBitPrecision_of_domain (ii : X86II) (TSFlags : Nat)
    (hXS : TSFlags &&& ii.OpPrefixMask ≠ ii.XS)
    (hXD : TSFlags &&& ii.OpPrefixMask ≠ ii.XD) :
    getInstructionBitPrecision ii TSFlags =
      match (TSFlags >>> ii.SSEDomainShift) &&& 3 with
      | 1 => Except.ok 32
      | 3 => Except.ok 32
      | 2 => Except.ok 64
      | _ => Except.error Fatal.unknownPrecision := by
  unfold getInstructionBitPrecision
  rw [if_neg hXS, if_neg hXD]

/-- C4: prefix priority in `getInstructionBitPrecision`. With `XS` and `XD`
distinct constants, every `TSFlags` whose prefix subfield
`TSFlags & OpPrefixMask` equals `XS` gives 32 and every `TSFlags` whose prefix
subfield equals `XD` gives 64, whatever the SSE-domain subfield and the other
bits are. The statement ranges over all natural numbers, the 64-bit values
among them. -/
theorem precision_prefix_priority (ii : X86II) (hne : ii.XS ≠ ii.XD) (TSFlags : Nat) :
    (TSFlags &&& ii.OpPrefixMask = ii.XS →
      getInstructionBitPrecision ii TSFlags = Except.ok 32) ∧
    (TSFlags &&& ii.OpPrefixMask = ii.XD →
      getInstructionBitPrecision ii TSFlags = Except.ok 64) := by
  refine ⟨getInstructionBitPrecision_of_XS ii TSFlags, fun h => ?_⟩
  exact getInstructionBitPrecision_of_XD ii TSFlags (fun e => hne (e.symm.trans h)) h

theorem precision_prefix_priority_witness :
    sampleX86II.XS ≠ sampleX86II.XD ∧
    (0x1000 + 2 * 2 ^ 26) &&& sampleX86II.OpPrefixMask = sampleX86II.XS ∧
    ((0x1000 + 2 * 2 ^ 26) >>> sampleX86II.SSEDomainShift) &&& 3 = 2 ∧
    getInstructionBitPrecision sampleX86II (0x1000 + 2 * 2 ^ 26) = Except.ok 32 ∧
    (0x1800 + 1 * 2 ^ 26) &&& sampleX86II.OpPrefixMask = sampleX86II.XD ∧
    ((0x1800 + 1 * 2 ^ 26) >>> sampleX86II.SSEDomainShift) &&& 3 = 1 ∧
    getInstructionBitPrecision sampleX86II (0x1800 + 1 * 2 ^ 26) = Except.ok 64 :=
  ⟨by decide, by decide, by decide,
   (precision_prefix_priority sampleX86II (by decide) (0x1000 + 2 * 2 ^ 26)).1 (by decide),
   by decide, by decide,
   (precision_prefix_priority sampleX86II (by decide) (0x1800 + 1 * 2 ^ 26)).2 (by decide)⟩

/-- C5: domain fallback in `getInstructionBitPrecision`. For every `TSFlags`
whose prefix subfield equals neither `XS` nor `XD`, the result is 64 when the
two-bit domain subfield `(TSFlags >> SSEDomainShift) & 3` is 2, and 32 when it
is 1 or 3. -/
theorem precision_domain_fallback (ii : X86II) (TSFlags : Nat)
    (hXS : TSFlags &&& ii.OpPrefixMask ≠ ii.XS)
    (hXD : TSFlags &&& ii.OpPrefixMask ≠ ii.XD) :
    ((TSFlags >>> ii.SSEDomainShift) &&& 3 = 2 →
      getInstructionBitPrecision ii TSFlags = Except.ok 64) ∧
    ((TSFlags >>> ii.SSEDomainShift) &&& 3 = 1 →
      getInstructionBitPrecision ii TSFlags = Except.ok 32) ∧
    ((TSFlags >>> ii.SSEDomainShift) &&& 3 = 3 →
      getInstructionBitPrecision ii TSFlags = Except.ok 32) := by
  rw [getInstructionBitPrecision_of_domain ii TSFlags hXS hXD]
  refine ⟨fun h => ?_, fun h => ?_, fun h => ?_⟩ <;> rw [h]

theorem precision_domain_fallback_witness :
    (3 * 2 ^ 26) &&& sampleX86II.OpPrefixMask ≠ sampleX86II.XS ∧
    (3 * 2 ^ 26) &&& sampleX86II.OpPrefixMask ≠ sampleX86II.XD ∧
    ((3 * 2 ^ 26) >>> sampleX86II.SSEDomainShift) &&& 3 = 3 ∧
    getInstructionBitPrecision sampleX86II (3 * 2 ^ 26) = Except.ok 32 :=
  ⟨by decide, by decide, by decide,
   (precision_domain_fallback sampleX86II (3 * 2 ^ 26) (by decide) (by decide)).2.2
     (by decide)⟩

/-- C6: `getInstructionBitPrecision` is fatal (reaches `llvm_unreachable`)
exactly when the prefix subfield of `TSFlags` equals neither `XS` nor `XD` and
the two-bit domain subfield is 0; for every other `TSFlags` it returns a
value. -/
theorem precision_fatal_iff (ii : X86II) (TSFlags : Nat) :
    (getInstructionBitPrecision ii TSFlags = Except.error Fatal.unknownPrecision ↔
      (TSFlags &&& ii.OpPrefixMask ≠ ii.XS ∧ TSFlags &&& ii.OpPrefixMask ≠ ii.XD ∧
        (TSFlags >>> ii.SSEDomainShift) &&& 3 = 0)) ∧
    ((∃ v, getInstructionBitPrecision ii TSFlags = Except.ok v) ↔
      ¬ (TSFlags &&& ii.OpPrefixMask ≠ ii.XS ∧ TSFlags &&& ii.OpPrefixMask ≠ ii.XD ∧
        (TSFlags >>> ii.SSEDomainShift) &&& 3 = 0)) := by
  by_cases hXS : TSFlags &&& ii.OpPrefixMask = ii.XS
  · simp [getInstructionBitPrecision_of_XS ii TSFlags hXS, hXS]
  by_cases hXD : TSFlags &&& ii.OpPrefixMask = ii.XD
  · simp [getInstructionBitPrecision_of_XD ii TSFlags hXS hXD, hXD]
  rw [getInstructionBitPrecision_of_domain ii TSFlags hXS hXD]
  have hlt := domain_lt_four TSFlags ii.SSEDomainShift
  generalize (TSFlags >>> ii.SSEDomainShift) &&& 3 = d at hlt
  have hd : d = 0 ∨ d = 1 ∨ d = 2 ∨ d = 3 := by omega
  rcases hd with rfl | rfl | rfl | rfl <;> simp [hXS, hXD]

theorem precision_fatal_iff_witness :
    getInstructionBitPrecision sampleX86II 0 = Except.error Fatal.unknownPrecision ∧
    ∃ v, getInstructionBitPrecision sampleX86II (2 ^ 26) = Except.ok v :=
  ⟨(precision_fatal_iff sampleX86II 0).1.2 (by decide),
   (precision_fatal_iff sampleX86II (2 ^ 26)).2.2 (by decide)⟩

/-! ## The table lookups -/

theorem find_mem {T : const_addl_instr_info} {Key : Nat} {r : X86AdditionalInstrInfo}
    (h : find T Key = some r) : (Key, r) ∈ T := by
  induction T with
  | nil => simp [find] at h
  | cons e rest ih =>
    obtain ⟨k, v⟩ := e
    unfold find at h
    split at h
    · next hk =>
      cases h
      subst hk
      exact List.mem_cons_self _ _
    · exact List.mem_cons_of_mem _ (ih h)

/-- C7: an opcode absent from the table is fatal. For every table and every
opcode whose key has no entry, `getInstructionKind` and
`getInstructionMemOpSize` both fail the "Unknown opcode" assertion, so neither
returns a kind or a size; for every opcode whose key has an entry both return
a value. -/
theorem absent_opcode_fatal (T : const_addl_instr_info) (Opcode : Nat) :
    (find T (toUInt16 Opcode) = none →
      getInstructionKind T Opcode = Except.error Fatal.unknownOpcode ∧
      getInstructionMemOpSize T Opcode = Except.error Fatal.unknownOpcode) ∧
    (∀ r, find T (toUInt16 Opcode) = some r →
      (∃ k, getInstructionKind T Opcode = Except.ok k) ∧
      (∃ m, getInstructionMemOpSize T Opcode = Except.ok m)) := by
  constructor
  · intro h
    exact ⟨getInstructionKind_of_find_none h, by simp [getInstructionMemOpSize, h]⟩
  · intro r h
    exact ⟨⟨_, getInstructionKind_of_find h⟩, ⟨_, getInstructionMemOpSize_of_find h⟩⟩

theorem absent_opcode_fatal_witness :
    find sampleTable (toUInt16 8) = none ∧
    getInstructionKind sampleTable 8 = Except.error Fatal.unknownOpcode ∧
    getInstructionMemOpSize sampleTable 8 = Except.error Fatal.unknownOpcode :=
  ⟨by decide, (absent_opcode_fatal sampleTable 8).1 (by decide)⟩

/-- C8: delegation to the table. For every table and every opcode whose key
has the entry with `MemOpSize = m` and `InstKind = k`, where `m` is a value of
the 8-bit field, `getInstructionKind` returns exactly `k` and
`getInstructionMemOpSize` returns exactly `m`. -/
theorem queries_delegate (T : const_addl_instr_info) (Opcode m : Nat)
    (k : InstructionKind) (hm : m < 256)
    (h : find T (toUInt16 Opcode) = some { MemOpSize := m, InstKind := k }) :
    getInstructionKind T Opcode = Except.ok k ∧
    getInstructionMemOpSize T Opcode = Except.ok m := by
  refine ⟨getInstructionKind_of_find h, ?_⟩
  rw [getInstructionMemOpSize_of_find h]
  show Except.ok (m % 65536) = Except.ok m
  rw [Nat.mod_eq_of_lt (by omega)]

theorem queries_delegate_witness :
    (8 : Nat) < 256 ∧
    find sampleTable (toUInt16 12) = some ⟨8, InstructionKind.SSE_CONVERT_RM⟩ ∧
    getInstructionKind sampleTable 12 = Except.ok InstructionKind.SSE_CONVERT_RM ∧
    getInstructionMemOpSize sampleTable 12 = Except.ok 8 :=
  ⟨by decide, by decide,
   queries_delegate sampleTable 12 8 InstructionKind.SSE_CONVERT_RM (by decide) (by decide)⟩

/-- C9: for a table whose records carry the sizes the spec gives them
(`recordSizesValid`) and every opcode whose key has an entry,
`getInstructionMemOpSize` returns one of 0, 1, 2, 4, 8. -/
theorem memOpSize_in_valid_set (T : const_addl_instr_info) (Opcode : Nat)
    (r : X86AdditionalInstrInfo) (hT : recordSizesValid T)
    (h : find T (toUInt16 Opcode) = some r) :
    ∃ m, getInstructionMemOpSize T Opcode = Except.ok m ∧
      (m = 0 ∨ m = 1 ∨ m = 2 ∨ m = 4 ∨ m = 8) := by
  refine ⟨_, getInstructionMemOpSize_of_find h, ?_⟩
  have hr := hT _ (find_mem h)
  simp only [toUInt16]
  rcases hr with e | e | e | e | e <;> rw [e] <;> simp

theorem memOpSize_in_valid_set_witness :
    recordSizesValid sampleTable ∧
    find sampleTable (toUInt16 9) = some ⟨0, InstructionKind.MOV_RR⟩ ∧
    ∃ m, getInstructionMemOpSize sampleTable 9 = Except.ok m ∧
      (m = 0 ∨ m = 1 ∨ m = 2 ∨ m = 4 ∨ m = 8) :=
  ⟨by decide, by decide,
   memOpSize_in_valid_set sampleTable 9 ⟨0, InstructionKind.MOV_RR⟩ (by decide) (by decide)⟩

/-- C10: whenever `getInstructionBitPrecision` returns a value, that value is
32 or 64. The statement ranges over all natural numbers, the 64-bit `TSFlags`
among them. -/
theorem precision_is_32_or_64 (ii : X86II) (TSFlags v : Nat)
    (h : getInstructionBitPrecision ii TSFlags = Except.ok v) : v = 32 ∨ v = 64 := by
  unfold getInstructionBitPrecision at h
  split at h
  · cases h; exact Or.inl rfl
  split at h
  · cases h; exact Or.inr rfl
  split at h
  · cases h; exact Or.inl rfl
  · cases h; exact Or.inl rfl
  · cases h; exact Or.inr rfl
  · cases h

theorem precision_is_32_or_64_witness :
    getInstructionBitPrecision sampleX86II (2 * 2 ^ 26) = Except.ok 64 ∧
    ((64 : Nat) = 32 ∨ (64 : Nat) = 64) :=
  ⟨by rfl, precision_is_32_or_64 sampleX86II (2 * 2 ^ 26) 64 (by rfl)⟩

/-! ## Precision depends on the two subfields only -/

/-- C12: the precision is determined by the two subfields alone. For any two
`TSFlags` values that agree on the prefix subfield `TSFlags & OpPrefixMask` and
on the domain subfield `(TSFlags >> SSEDomainShift) & 3`,
`getInstructionBitPrecision` gives the same outcome: the same returned value,
or the fatal outcome for both. -/
theorem precision_depends_on_subfields (ii : X86II) (F G : Nat)
    (hp : F &&& ii.OpPrefixMask = G &&& ii.OpPrefixMask)
    (hd : (F >>> ii.SSEDomainShift) &&& 3 = (G >>> ii.SSEDomainShift) &&& 3) :
    getInstructionBitPrecision ii F = getInstructionBitPrecision ii G := by
  unfold getInstructionBitPrecision
  rw [hp, hd]

theorem precision_depends_on_subfields_witness :
    (2 ^ 26 + 1) &&& sampleX86II.OpPrefixMask = (2 ^ 26 + 2 ^ 40) &&& sampleX86II.OpPrefixMask ∧
    ((2 ^ 26 + 1) >>> sampleX86II.SSEDomainShift) &&& 3 =
      ((2 ^ 26 + 2 ^ 40) >>> sampleX86II.SSEDomainShift) &&& 3 ∧
    getInstructionBitPrecision sampleX86II (2 ^ 26 + 1) =
      getInstructionBitPrecision sampleX86II (2 ^ 26 + 2 ^ 40) ∧
    getInstructionBitPrecision sampleX86II (2 ^ 26 + 1) = Except.ok 32 :=
  ⟨by decide, by decide,
   precision_depends_on_subfields sampleX86II (2 ^ 26 + 1) (2 ^ 26 + 2 ^ 40)
     (by decide) (by decide),
   by rfl⟩

/-! ## The derived predicates on an absent opcode -/

theorem find_none_or_some (T : const_addl_instr_info) (Key : Nat) :
    find T Key = none ∨ ∃ r, find T Key = some r := by
  cases h : find T Key with
  | none => exact Or.inl rfl
  | some r => exact Or.inr ⟨r, rfl⟩

theorem isNoop_of_find_none {T : const_addl_instr_info} {Opcode : Nat}
    (h : find T (toUInt16 Opcode) = none) :
    isNoop T Opcode = Except.error Fatal.unknownOpcode := by
  simp [isNoop, getInstructionKind_of_find_none h]

theorem isSSE2Instruction_of_find_none {T : const_addl_instr_info} {Opcode : Nat}
    (h : find T (toUInt16 Opcode) = none) :
    isSSE2Instruction T Opcode = Except.error Fatal.unknownOpcode := by
  simp [isSSE2Instruction, getInstructionKind_of_find_none h]

/-- C13: the derived predicates propagate the table's failure. For every table
and every opcode whose key has no entry, `isNoop` and `isSSE2Instruction` end
in the "Unknown opcode" assertion failure and return no boolean; each of them
returns a boolean exactly when the key has an entry. -/
theorem predicates_propagate_failure (T : const_addl_instr_info) (Opcode : Nat) :
    (find T (toUInt16 Opcode) = none →
      isNoop T Opcode = Except.error Fatal.unknownOpcode ∧
      isSSE2Instruction T Opcode = Except.error Fatal.unknownOpcode) ∧
    ((∃ b, isNoop T Opcode = Except.ok b) ↔ ∃ r, find T (toUInt16 Opcode) = some r) ∧
    ((∃ b, isSSE2Instruction T Opcode = Except.ok b) ↔
      ∃ r, find T (toUInt16 Opcode) = some r) := by
  refine ⟨fun h => ⟨isNoop_of_find_none h, isSSE2Instruction_of_find_none h⟩, ?_, ?_⟩
  · constructor
    · rintro ⟨b, hb⟩
      rcases find_none_or_some T (toUInt16 Opcode) with h | h
      · rw [isNoop_of_find_none h] at hb
        cases hb
      · exact h
    · rintro ⟨r, h⟩
      exact ⟨_, isNoop_of_find h⟩
  · constructor
    · rintro ⟨b, hb⟩
      rcases find_none_or_some T (toUInt16 Opcode) with h | h
      · rw [isSSE2Instruction_of_find_none h] at hb
        cases hb
      · exact h
    · rintro ⟨r, h⟩
      exact ⟨_, isSSE2Instruction_of_find h⟩

theorem predicates_propagate_failure_witness :
    find sampleTable (toUInt16 8) = none ∧
    isNoop sampleTable 8 = Except.error Fatal.unknownOpcode ∧
    isSSE2Instruction sampleTable 8 = Except.error Fatal.unknownOpcode :=
  ⟨by decide, (predicates_propagate_failure sampleTable 8).1 (by decide)⟩

/-! ## Opcodes are looked up modulo 2^16 -/

theorem toUInt16_mod (Opcode : Nat) : toUInt16 (Opcode % 65536) = toUInt16 Opcode := by
  unfold toUInt16
  exact Nat.mod_mod _ _

/-- C14: opcodes are looked up modulo 2^16. For every table and every
`Opcode`, `getInstructionKind` and `getInstructionMemOpSize` have the same
outcome as for `Opcode mod 65536`; and there are a table and a 32-bit `Opcode`
of at least 65536 that is not itself a key, for which the lookup is not fatal
but returns the record stored under `Opcode mod 65536`. -/
theorem opcode_lookup_mod_65536 :
    (∀ (T : const_addl_instr_info) (Opcode : Nat),
      getInstructionKind T Opcode = getInstructionKind T (Opcode % 65536) ∧
      getInstructionMemOpSize T Opcode = getInstructionMemOpSize T (Opcode % 65536)) ∧
    (∃ (T : const_addl_instr_info) (Opcode : Nat) (r : X86AdditionalInstrInfo),
      65536 ≤ Opcode ∧ Opcode < 2 ^ 32 ∧ find T Opcode = none ∧
      find T (Opcode % 65536) = some r ∧
      getInstructionKind T Opcode = Except.ok r.InstKind ∧
      getInstructionMemOpSize T Opcode = Except.ok r.MemOpSize) := by
  constructor
  · intro T Opcode
    unfold getInstructionKind getInstructionMemOpSize
    rw [toUInt16_mod]
    exact ⟨rfl, rfl⟩
  · refine ⟨sampleTable, 65536 + 12, ⟨8, InstructionKind.SSE_CONVERT_RM⟩, ?_⟩
    refine ⟨by decide, by decide, by decide, by decide, by rfl, by rfl⟩

/-! ## The two derived predicates exclude each other -/

/-- C15: the two derived predicates are mutually exclusive. `NOOP` is declared
before `SSE_KIND_BEGIN`, and for every table and every opcode whose key has an
entry, `isNoop` and `isSSE2Instruction` both return a boolean and the two are
never both true. -/
theorem isNoop_isSSE2Instruction_exclusive (T : const_addl_instr_info) (Opcode : Nat)
    (r : X86AdditionalInstrInfo) (h : find T (toUInt16 Opcode) = some r) :
    InstructionKind.NOOP.toNat < InstructionKind.SSE_KIND_BEGIN.toNat ∧
    ∃ b1 b2, isNoop T Opcode = Except.ok b1 ∧ isSSE2Instruction T Opcode = Except.ok b2 ∧
      ¬ (b1 = true ∧ b2 = true) := by
  refine ⟨by decide, _, _, isNoop_of_find h, isSSE2Instruction_of_find h, ?_⟩
  simp only [decide_eq_true_eq, Bool.and_eq_true, gt_iff_lt]
  rintro ⟨h1, h2, _⟩
  rw [h1] at h2
  exact absurd h2 (by decide)

theorem isNoop_isSSE2Instruction_exclusive_witness :
    find sampleTable (toUInt16 7) = some ⟨0, InstructionKind.NOOP⟩ ∧
    InstructionKind.NOOP.toNat < InstructionKind.SSE_KIND_BEGIN.toNat ∧
    ∃ b1 b2, isNoop sampleTable 7 = Except.ok b1 ∧
      isSSE2Instruction sampleTable 7 = Except.ok b2 ∧ ¬ (b1 = true ∧ b2 = true) :=
  ⟨by decide,
   isNoop_isSSE2Instruction_exclusive sampleTable 7 ⟨0, InstructionKind.NOOP⟩ (by decide)⟩

end mctoll
